import Mathlib

/-!
Shallow embedding of the Task Manager backend (Express + Mongoose) and proofs
of its specification claims.  The definitions below are translated from
`backend/routes/tasks.js`, `backend/routes/auth.js`, the `protect`
authentication middleware, and the `Task`/`User` Mongoose schemas.  External
libraries (express-validator sanitizers, validator.js `isEmail`, bcryptjs,
jsonwebtoken) are modelled by small executable functions capturing the
behaviour the routes rely on.
-/

namespace TaskManager

/-- Whitespace characters handled by the JavaScript `trim` sanitizer. -/
def jsWs (c : Char) : Bool :=
  c == ' ' || c == '\t' || c == '\n' || c == '\r'

/-- Drop trailing characters satisfying `p` (structural recursion). -/
def dropTrail (p : Char → Bool) : List Char → List Char
  | [] => []
  | x :: xs =>
    match dropTrail p xs with
    | [] => if p x then [] else [x]
    | y :: ys => x :: y :: ys

/-- Character-list form of the JavaScript trim: drop leading and trailing
whitespace. -/
def trimChars (l : List Char) : List Char :=
  dropTrail jsWs (l.dropWhile jsWs)

/-- Model of the `.trim()` sanitizer of express-validator and of the
`trim: true` option of the Mongoose schemas. -/
def jsTrim (s : String) : String :=
  ⟨trimChars s.data⟩

/-- Split a character list at every occurrence of `c`. -/
def splitOnChar (c : Char) : List Char → List (List Char)
  | [] => [[]]
  | x :: xs =>
    if x == c then [] :: splitOnChar c xs
    else
      match splitOnChar c xs with
      | [] => [[x]]
      | y :: ys => (x :: y) :: ys

/-- Model of validator.js `isEmail` as used by `body('email').isEmail()`:
one `@`, a non-empty local part, and a dotted non-empty domain. -/
def isEmail (s : String) : Bool :=
  match splitOnChar '@' s.data with
  | [l, d] =>
    !l.isEmpty && !d.isEmpty &&
      (let parts := splitOnChar '.' d
       decide (2 ≤ parts.length) && parts.all (fun p => !p.isEmpty))
  | _ => false

/-- Model of the `.normalizeEmail()` sanitizer (and of the schema's
`lowercase: true`): lowercases the address. -/
def normalizeEmail (s : String) : String :=
  ⟨s.data.map Char.toLower⟩

/-- Abstract model of a bcrypt hash: the salt together with a digest that is
a deterministic function of salt and password. -/
structure StoredHash where
  salt : Nat
  digest : Nat
deriving DecidableEq

/-- Deterministic digest function standing in for the bcrypt algorithm. -/
def bcryptDigest (salt : Nat) (pw : String) : Nat :=
  pw.data.foldl (fun a c => a * 131 + c.toNat + salt) 7

/-- Model of `bcrypt.hash(password, salt)`. -/
def bcryptHash (salt : Nat) (pw : String) : StoredHash :=
  ⟨salt, bcryptDigest salt pw⟩

/-- Model of `bcrypt.compare(password, hash)`: recompute the digest with the
salt embedded in the stored hash and compare. -/
def bcryptCompare (pw : String) (h : StoredHash) : Bool :=
  h.digest == bcryptDigest h.salt pw

/-- A decoded JWT as issued by this application: the user id payload, the
expiry instant, and the signature. -/
structure Token where
  id : Nat
  exp : Nat
  sig : Nat
deriving DecidableEq

/-- Deterministic stand-in for the HMAC signature of jsonwebtoken. -/
def jwtSign (secret id exp : Nat) : Nat :=
  (secret + 1) * 1000003 + id * 1009 + exp

/-- Thirty days in seconds, the `expiresIn: '30d'` validity window. -/
def thirtyDays : Nat := 30 * 24 * 60 * 60

/-- Model of `jwt.sign({id}, secret, {expiresIn: '30d'})` at time `now`. -/
def signToken (secret id now : Nat) : Token :=
  ⟨id, now + thirtyDays, jwtSign secret id (now + thirtyDays)⟩

/-- Model of `jwt.verify`: succeeds exactly when the signature matches and
the expiry instant has not passed. -/
def verifyTok (secret now : Nat) (t : Token) : Bool :=
  t.sig == jwtSign secret t.id t.exp && decide (now < t.exp)

/-- A persisted user document (`models/User.js`): the password field holds
only the bcrypt hash. -/
structure Identity where
  id : Nat
  username : String
  email : String
  password : StoredHash
deriving DecidableEq

/-- A persisted task document (`models/Task.js`). -/
structure Task where
  id : Nat
  user : Nat
  title : String
  description : String
  completed : Bool
  createdAt : Nat
deriving DecidableEq

/-- The persistence layer: the users and tasks collections. -/
structure Db where
  users : List Identity
  tasks : List Task
deriving DecidableEq

/-- A user document with the password field excluded, as produced by
`.select('-password')` in the protect middleware. -/
structure PublicUser where
  id : Nat
  username : String
  email : String
deriving DecidableEq

/-- `.select('-password')`: drop the password field. -/
def publicOf (u : Identity) : PublicUser :=
  ⟨u.id, u.username, u.email⟩

/-- The Authorization header of a request: absent (or not starting with
`Bearer`), or a bearer token, where `none` inside models a string that does
not parse as a JWT at all. -/
inductive AuthHeader where
  | missing : AuthHeader
  | bearer : Option Token → AuthHeader
deriving DecidableEq

/-- Outcome of the protect middleware; every failure is sent with status
401. -/
inductive ProtectResult where
  | ok : PublicUser → ProtectResult
  | fail : String → ProtectResult
deriving DecidableEq

/-- `User.findById(decoded.id)`. -/
def findUserById (db : Db) (i : Nat) : Option Identity :=
  db.users.find? (fun u => u.id == i)

/-- `User.findOne({email})`. -/
def findUserByEmail (db : Db) (e : String) : Option Identity :=
  db.users.find? (fun u => u.email == e)

/-- `User.findOne({username})`. -/
def findUserByName (db : Db) (n : String) : Option Identity :=
  db.users.find? (fun u => u.username == n)

/-- The protect middleware (`middleware/auth.js`): extract the bearer token,
verify it, look the user up, and attach it without its password field. -/
def protect (db : Db) (secret now : Nat) (h : AuthHeader) : ProtectResult :=
  match h with
  | .missing => .fail "Not authorized, no token"
  | .bearer none => .fail "Not authorized, token failed"
  | .bearer (some t) =>
    if verifyTok secret now t then
      match findUserById db t.id with
      | none => .fail "User not found"
      | some u => .ok (publicOf u)
    else .fail "Not authorized, token failed"

/-- Response of a task route: a task list (200), a single task with its
status code (200/201), a success message (200), or an error status with its
message. -/
inductive TaskResp where
  | list : List Task → TaskResp
  | one : Nat → Task → TaskResp
  | done : String → TaskResp
  | fail : Nat → String → TaskResp
deriving DecidableEq

/-- Request body of `POST /api/tasks`; `completed` and `user` model extra
fields a client may send, which the handler never reads. -/
structure CreateBody where
  title : String
  description : Option String
  completed : Option Bool
  user : Option Nat
deriving DecidableEq

/-- Request body of `PUT /api/tasks/:id`: every field optional. -/
structure UpdateBody where
  title : Option String
  description : Option String
  completed : Option Bool
deriving DecidableEq

/-- First validation error of `POST /api/tasks` (`errors.array()[0].msg`):
title trimmed then required and at most 200 characters, description trimmed
then at most 1000 characters. -/
def createFirstError (b : CreateBody) : Option String :=
  if jsTrim b.title == "" then some "Task title is required"
  else if decide (200 < (jsTrim b.title).length) then
    some "Title cannot exceed 200 characters"
  else
    match b.description with
    | some d =>
      if decide (1000 < (jsTrim d).length) then
        some "Description cannot exceed 1000 characters"
      else none
    | none => none

/-- First validation error of `PUT /api/tasks/:id`: the same constraints as
creation, each applied only when the field is present. -/
def updateFirstError (b : UpdateBody) : Option String :=
  match b.title with
  | some s =>
    if jsTrim s == "" then some "Title cannot be empty"
    else if decide (200 < (jsTrim s).length) then
      some "Title cannot exceed 200 characters"
    else
      match b.description with
      | some d =>
        if decide (1000 < (jsTrim d).length) then
          some "Description cannot exceed 1000 characters"
        else none
      | none => none
  | none =>
    match b.description with
    | some d =>
      if decide (1000 < (jsTrim d).length) then
        some "Description cannot exceed 1000 characters"
      else none
    | none => none

/-- The document built by `Task.create` in the POST handler: owner forced to
the authenticated user, trimmed title, `description || ''`, completed false. -/
def mkTask (uid fid now : Nat) (b : CreateBody) : Task :=
  { id := fid
    user := uid
    title := jsTrim b.title
    description := (b.description.map jsTrim).getD ""
    completed := false
    createdAt := now }

/-- `POST /api/tasks` after protect: validate, then persist the new task and
return it with status 201. -/
def createTask (db : Db) (uid fid now : Nat) (b : CreateBody) : Db × TaskResp :=
  match createFirstError b with
  | some m => (db, .fail 400 m)
  | none =>
    ({ db with tasks := db.tasks ++ [mkTask uid fid now b] },
     .one 201 (mkTask uid fid now b))

/-- `Task.findOne({_id: tid, user: uid})`: the single ownership-scoped
lookup shared by the update and delete handlers. -/
def findOwnedTask (db : Db) (tid uid : Nat) : Option Task :=
  db.tasks.find? (fun t => t.id == tid && t.user == uid)

/-- The field-update block of the PUT handler: overwrite exactly the fields
present in the request body (title and description arrive trimmed by the
sanitizers). -/
def applyUpdate (b : UpdateBody) (t : Task) : Task :=
  { t with
    title := (b.title.map jsTrim).getD t.title
    description := (b.description.map jsTrim).getD t.description
    completed := b.completed.getD t.completed }

/-- `PUT /api/tasks/:id` after protect: validate, resolve by id AND owner in
one lookup, 404 if no match, else apply the present fields and save. -/
def updateTask (db : Db) (uid tid : Nat) (b : UpdateBody) : Db × TaskResp :=
  match updateFirstError b with
  | some m => (db, .fail 400 m)
  | none =>
    match findOwnedTask db tid uid with
    | none => (db, .fail 404 "Task not found")
    | some t =>
      ({ db with
          tasks := db.tasks.map fun x => if x.id == t.id then applyUpdate b t else x },
       .one 200 (applyUpdate b t))

/-- `DELETE /api/tasks/:id` after protect: the same ownership-scoped lookup,
404 if no match, else remove the record. -/
def deleteTask (db : Db) (uid tid : Nat) : Db × TaskResp :=
  match findOwnedTask db tid uid with
  | none => (db, .fail 404 "Task not found")
  | some t =>
    ({ db with tasks := db.tasks.filter fun x => x.id != t.id },
     .done "Task deleted successfully")

/-- Insert a task into a list sorted by `createdAt` descending. -/
def insertDesc (t : Task) : List Task → List Task
  | [] => [t]
  | x :: xs => if x.createdAt ≤ t.createdAt then t :: x :: xs else x :: insertDesc t xs

/-- Sort tasks by `createdAt` descending, modelling `.sort({createdAt: -1})`. -/
def sortDesc : List Task → List Task
  | [] => []
  | x :: xs => insertDesc x (sortDesc xs)

/-- `GET /api/tasks` after protect:
`Task.find({user: uid}).sort({createdAt: -1})`. -/
def listTasks (db : Db) (uid : Nat) : List Task :=
  sortDesc (db.tasks.filter fun t => t.user == uid)

/-- The DELETE route including the protect middleware: on any authentication
failure the 401 is returned before any repository logic runs. -/
def deleteRoute (db : Db) (secret now : Nat) (h : AuthHeader) (tid : Nat) :
    Db × TaskResp :=
  match protect db secret now h with
  | .fail m => (db, .fail 401 m)
  | .ok u => deleteTask db u.id tid

/-- Response of an auth route: token plus public user data, or an error
status with its message. -/
inductive AuthResp where
  | ok : Nat → Token → PublicUser → AuthResp
  | fail : Nat → String → AuthResp
deriving DecidableEq

/-- Request body of `POST /api/auth/login`. -/
structure LoginBody where
  email : String
  password : String
deriving DecidableEq

/-- First validation error of the login route: email format first, then
password non-empty. -/
def loginFirstError (b : LoginBody) : Option String :=
  if !isEmail b.email then some "Please provide a valid email"
  else if b.password == "" then some "Password is required"
  else none

/-- `POST /api/auth/login`: validate, find the user by normalized email,
compare the bcrypt hash, and issue a 30-day token on success. -/
def login (db : Db) (secret now : Nat) (b : LoginBody) : AuthResp :=
  match loginFirstError b with
  | some m => .fail 400 m
  | none =>
    match findUserByEmail db (normalizeEmail b.email) with
    | none => .fail 401 "Invalid email or password"
    | some u =>
      if bcryptCompare b.password u.password then
        .ok 200 (signToken secret u.id now) (publicOf u)
      else .fail 401 "Invalid email or password"

/-- Request body of `POST /api/auth/register`. -/
structure RegisterBody where
  username : String
  email : String
  password : String
deriving DecidableEq

/-- First validation error of the register route: username trimmed then at
least 3 characters, email format, password at least 6 characters. -/
def registerFirstError (b : RegisterBody) : Option String :=
  if decide ((jsTrim b.username).length < 3) then
    some "Username must be at least 3 characters long"
  else if !isEmail b.email then some "Please provide a valid email"
  else if decide (b.password.length < 6) then
    some "Password must be at least 6 characters long"
  else none

/-- `POST /api/auth/register`: validate, reject a duplicate email, then a
duplicate username, else hash the password, persist the user and issue a
token with status 201. -/
def register (db : Db) (secret now fid salt : Nat) (b : RegisterBody) :
    Db × AuthResp :=
  match registerFirstError b with
  | some m => (db, .fail 400 m)
  | none =>
    match findUserByEmail db (normalizeEmail b.email) with
    | some _ => (db, .fail 400 "User already exists with this email")
    | none =>
      match findUserByName db (jsTrim b.username) with
      | some _ => (db, .fail 400 "Username already taken")
      | none =>
        let u : Identity :=
          { id := fid
            username := jsTrim b.username
            email := normalizeEmail b.email
            password := bcryptHash salt b.password }
        ({ db with users := db.users ++ [u] },
         .ok 201 (signToken secret fid now) (publicOf u))

end TaskManager
namespace TaskManager

theorem dropWhile_length_le (p : Char → Bool) (l : List Char) :
    (l.dropWhile p).length ≤ l.length := by
  induction l with
  | nil => simp
  | cons x xs ih =>
    by_cases h : p x
    · simp only [List.dropWhile_cons, if_pos h, List.length_cons]
      omega
    · simp [List.dropWhile_cons, if_neg h]

theorem dropWhile_self (p : Char → Bool) (l : List Char) :
    (l.dropWhile p).dropWhile p = l.dropWhile p := by
  induction l with
  | nil => rfl
  | cons x xs ih =>
    by_cases h : p x
    · simp [List.dropWhile_cons, h, ih]
    · simp [List.dropWhile_cons, h]

theorem dropTrail_cons (p : Char → Bool) (x : Char) (xs : List Char) :
    dropTrail p (x :: xs) =
      match dropTrail p xs with
      | [] => if p x then [] else [x]
      | y :: ys => x :: y :: ys := rfl

theorem dropTrail_noLead (p : Char → Bool) (l : List Char) (hl : l.dropWhile p = l) :
    (dropTrail p l).dropWhile p = dropTrail p l := by
  cases l with
  | nil => rfl
  | cons x xs =>
    have hx : p x = false := by
      by_contra hpx
      simp only [Bool.not_eq_false] at hpx
      rw [List.dropWhile_cons, if_pos hpx] at hl
      have h1 : (xs.dropWhile p).length = xs.length + 1 := by
        rw [hl, List.length_cons]
      have h2 := dropWhile_length_le p xs
      omega
    rw [dropTrail_cons]
    cases h : dropTrail p xs with
    | nil => simp [hx]
    | cons y ys => simp [List.dropWhile_cons, hx]

theorem dropTrail_idem (p : Char → Bool) (l : List Char) :
    dropTrail p (dropTrail p l) = dropTrail p l := by
  induction l with
  | nil => rfl
  | cons x xs ih =>
    cases h : dropTrail p xs with
    | nil =>
      rw [dropTrail_cons, h]
      by_cases hx : p x
      · simp [hx, dropTrail]
      · simp [hx, dropTrail]
    | cons y ys =>
      have h2 : dropTrail p (y :: ys) = y :: ys := h ▸ ih
      rw [dropTrail_cons, h]
      show dropTrail p (x :: y :: ys) = x :: y :: ys
      rw [dropTrail_cons, h2]

theorem trimChars_idem (l : List Char) : trimChars (trimChars l) = trimChars l := by
  unfold trimChars
  rw [dropTrail_noLead jsWs (l.dropWhile jsWs) (dropWhile_self jsWs l)]
  exact dropTrail_idem jsWs (l.dropWhile jsWs)

theorem jsTrim_idem (s : String) : jsTrim (jsTrim s) = jsTrim s := by
  simp only [jsTrim]
  exact congrArg String.mk (trimChars_idem s.data)

theorem mem_insertDesc (t x : Task) (l : List Task) :
    x ∈ insertDesc t l ↔ x = t ∨ x ∈ l := by
  induction l with
  | nil => simp [insertDesc]
  | cons y ys ih =>
    by_cases h : y.createdAt ≤ t.createdAt
    · simp [insertDesc, h]
    · simp [insertDesc, h, ih]
      tauto

theorem mem_sortDesc (x : Task) (l : List Task) : x ∈ sortDesc l ↔ x ∈ l := by
  induction l with
  | nil => simp [sortDesc]
  | cons y ys ih => simp [sortDesc, mem_insertDesc, ih]

theorem pairwise_insertDesc (t : Task) (l : List Task)
    (h : l.Pairwise fun a b => b.createdAt ≤ a.createdAt) :
    (insertDesc t l).Pairwise fun a b => b.createdAt ≤ a.createdAt := by
  induction l with
  | nil => simp [insertDesc]
  | cons y ys ih =>
    rcases List.pairwise_cons.mp h with ⟨hy, hys⟩
    by_cases hc : y.createdAt ≤ t.createdAt
    · simp only [insertDesc, if_pos hc]
      refine List.pairwise_cons.mpr ⟨?_, h⟩
      intro z hz
      rcases List.mem_cons.mp hz with hz | hz
      · subst hz
        omega
      · have := hy z hz
        omega
    · simp only [insertDesc, if_neg hc]
      refine List.pairwise_cons.mpr ⟨?_, ih hys⟩
      intro z hz
      rcases (mem_insertDesc t z ys).mp hz with hz | hz
      · subst hz
        omega
      · exact hy z hz

theorem pairwise_sortDesc (l : List Task) :
    (sortDesc l).Pairwise fun a b => b.createdAt ≤ a.createdAt := by
  induction l with
  | nil => simp [sortDesc]
  | cons x xs ih => exact pairwise_insertDesc x (sortDesc xs) ih

theorem sortDesc_append_newest (t : Task) (l : List Task)
    (h : ∀ x ∈ l, x.createdAt < t.createdAt) :
    sortDesc (l ++ [t]) = t :: sortDesc l := by
  induction l with
  | nil => rfl
  | cons x xs ih =>
    have hx : x.createdAt < t.createdAt := h x (List.mem_cons_self x xs)
    have hxs : ∀ y ∈ xs, y.createdAt < t.createdAt := fun y hy => h y (List.mem_cons_of_mem x hy)
    simp only [List.cons_append, sortDesc, List.append_eq]
    rw [ih hxs]
    simp [insertDesc, Nat.not_le.mpr hx]

end TaskManager
namespace TaskManager

/-- Claim C1: update and delete resolve the task with the single
ownership-scoped lookup `findOwnedTask` (id AND owner), and when no task
with the given id is owned by the caller — whether the id is absent
altogether or the task belongs to another identity — both return 404
"Task not found" with no state change. -/
theorem update_delete_merged_not_found (db : Db) (uid tid : Nat) (b : UpdateBody)
    (hv : updateFirstError b = none)
    (hnone : ∀ t ∈ db.tasks, t.id = tid → t.user ≠ uid) :
    updateTask db uid tid b = (db, .fail 404 "Task not found") ∧
    deleteTask db uid tid = (db, .fail 404 "Task not found") := by
  have hfind : findOwnedTask db tid uid = none := by
    rw [findOwnedTask, List.find?_eq_none]
    intro t ht
    simp only [Bool.and_eq_true, beq_iff_eq, not_and]
    exact hnone t ht
  constructor
  · simp [updateTask, hv, hfind]
  · simp [deleteTask, hfind]

theorem update_delete_merged_not_found_witness :
    updateTask ⟨[], [⟨1, 2, "Alpha", "", false, 10⟩]⟩ 1 1 ⟨none, none, some true⟩ =
      (⟨[], [⟨1, 2, "Alpha", "", false, 10⟩]⟩, .fail 404 "Task not found") ∧
    deleteTask ⟨[], [⟨1, 2, "Alpha", "", false, 10⟩]⟩ 1 1 =
      (⟨[], [⟨1, 2, "Alpha", "", false, 10⟩]⟩, .fail 404 "Task not found") :=
  update_delete_merged_not_found ⟨[], [⟨1, 2, "Alpha", "", false, 10⟩]⟩ 1 1
    ⟨none, none, some true⟩ (by decide) (by decide)

/-- Claim C2: login with an unknown email and login with a known email but a
secret that does not verify both fail with status 401 and the identical
message "Invalid email or password". -/
theorem login_failure_message_uniform (db : Db) (secret now : Nat) (e p : String)
    (hfmt : loginFirstError ⟨e, p⟩ = none) :
    (findUserByEmail db (normalizeEmail e) = none →
      login db secret now ⟨e, p⟩ = .fail 401 "Invalid email or password") ∧
    (∀ u, findUserByEmail db (normalizeEmail e) = some u →
      bcryptCompare p u.password = false →
      login db secret now ⟨e, p⟩ = .fail 401 "Invalid email or password") := by
  constructor
  · intro h
    simp [login, hfmt, h]
  · intro u hu hcmp
    simp [login, hfmt, hu, hcmp]

theorem login_failure_message_uniform_witness :
    login ⟨[⟨1, "alice", "alice@x.co", bcryptHash 3 "hunter99"⟩], []⟩ 5 100
      ⟨"bob@x.co", "hunter99"⟩ = .fail 401 "Invalid email or password" ∧
    login ⟨[⟨1, "alice", "alice@x.co", bcryptHash 3 "hunter99"⟩], []⟩ 5 100
      ⟨"alice@x.co", "wrong"⟩ = .fail 401 "Invalid email or password" := by
  constructor
  · exact (login_failure_message_uniform ⟨[⟨1, "alice", "alice@x.co", bcryptHash 3 "hunter99"⟩], []⟩
      5 100 "bob@x.co" "hunter99" (by decide)).1 (by decide)
  · exact (login_failure_message_uniform ⟨[⟨1, "alice", "alice@x.co", bcryptHash 3 "hunter99"⟩], []⟩
      5 100 "alice@x.co" "wrong" (by decide)).2
      ⟨1, "alice", "alice@x.co", bcryptHash 3 "hunter99"⟩ (by decide) (by decide)

/-- Claim C3: the protect middleware fails with "Not authorized, token
failed" on a malformed token, a bad signature, or a passed expiry (even with
a valid signature); with a verified token but no matching identity it fails
with "User not found"; on success it yields the identity without its
password field; and any protect failure is returned (status 401) with the
repository state untouched, before any repository logic. -/
theorem protect_auth_cases (db : Db) (secret now : Nat) :
    (protect db secret now (.bearer none) = .fail "Not authorized, token failed") ∧
    (∀ t : Token, verifyTok secret now t = false →
      protect db secret now (.bearer (some t)) = .fail "Not authorized, token failed") ∧
    (∀ t : Token, t.sig ≠ jwtSign secret t.id t.exp → verifyTok secret now t = false) ∧
    (∀ t : Token, t.exp ≤ now → verifyTok secret now t = false) ∧
    (∀ t : Token, verifyTok secret now t = true → findUserById db t.id = none →
      protect db secret now (.bearer (some t)) = .fail "User not found") ∧
    (∀ t : Token, ∀ u : Identity, verifyTok secret now t = true →
      findUserById db t.id = some u →
      protect db secret now (.bearer (some t)) = .ok ⟨u.id, u.username, u.email⟩) ∧
    (∀ h : AuthHeader, ∀ m : String, ∀ tid : Nat, protect db secret now h = .fail m →
      deleteRoute db secret now h tid = (db, .fail 401 m)) := by
  refine ⟨rfl, ?_, ?_, ?_, ?_, ?_, ?_⟩
  · intro t hv
    simp [protect, hv]
  · intro t hsig
    simp [verifyTok, hsig]
  · intro t hexp
    simp [verifyTok]
    omega
  · intro t hv hu
    simp [protect, hv, hu]
  · intro t u hv hu
    simp [protect, hv, hu, publicOf]
  · intro h m tid hp
    simp [deleteRoute, hp]

theorem protect_auth_cases_witness :
    protect ⟨[⟨1, "alice", "a@b.co", bcryptHash 3 "x"⟩], []⟩ 5 thirtyDays
      (.bearer (some (signToken 5 1 0))) = .fail "Not authorized, token failed" := by
  have h := protect_auth_cases ⟨[⟨1, "alice", "a@b.co", bcryptHash 3 "x"⟩], []⟩ 5 thirtyDays
  exact h.2.1 (signToken 5 1 0) (h.2.2.2.1 (signToken 5 1 0) (by decide))

end TaskManager
namespace TaskManager

/-- Claim C4: listing returns exactly the caller's tasks, ordered by
creation time descending, and immediately after a successful create the new
task is the first element of the list, with the title and description the
create stored. -/
theorem list_scoped_sorted_roundtrip (db : Db) (uid fid now : Nat) (b : CreateBody)
    (hfresh : ∀ t ∈ db.tasks, t.createdAt < now)
    (hv : createFirstError b = none) :
    (∀ t : Task, t ∈ listTasks db uid ↔ t ∈ db.tasks ∧ t.user = uid) ∧
    (listTasks db uid).Pairwise (fun a b => b.createdAt ≤ a.createdAt) ∧
    (createTask db uid fid now b).2 = .one 201 (mkTask uid fid now b) ∧
    (listTasks (createTask db uid fid now b).1 uid).head? = some (mkTask uid fid now b) ∧
    (mkTask uid fid now b).title = jsTrim b.title ∧
    (mkTask uid fid now b).description = (b.description.map jsTrim).getD "" := by
  refine ⟨?_, pairwise_sortDesc _, ?_, ?_, rfl, rfl⟩
  · intro t
    rw [listTasks, mem_sortDesc, List.mem_filter]
    simp
  · simp [createTask, hv]
  · have hdb : (createTask db uid fid now b).1.tasks = db.tasks ++ [mkTask uid fid now b] := by
      simp [createTask, hv]
    rw [listTasks, hdb, List.filter_append]
    have hmk : ((mkTask uid fid now b).user == uid) = true := by simp [mkTask]
    rw [show List.filter (fun t => t.user == uid) [mkTask uid fid now b] =
          [mkTask uid fid now b] by simp [hmk]]
    rw [sortDesc_append_newest]
    · rfl
    · intro x hx
      have hx2 := hfresh x (List.mem_filter.mp hx).1
      simpa [mkTask] using hx2

theorem list_scoped_sorted_roundtrip_witness :
    (listTasks (createTask ⟨[], [⟨1, 7, "Old", "", false, 10⟩]⟩ 7 2 100
        ⟨"Buy milk", some "Two liters", none, none⟩).1 7).head? =
      some (mkTask 7 2 100 ⟨"Buy milk", some "Two liters", none, none⟩) :=
  (list_scoped_sorted_roundtrip ⟨[], [⟨1, 7, "Old", "", false, 10⟩]⟩ 7 2 100
    ⟨"Buy milk", some "Two liters", none, none⟩ (by decide) (by decide)).2.2.2.1

/-- Claim C5: a valid create persists a task whose owner is forced to the
authenticated identity and whose completed flag is forced to false, whatever
`completed` or `user` the request body carries; an absent description
defaults to the empty string; the task is returned with status 201. -/
theorem create_forces_owner_completed (db : Db) (uid fid now : Nat)
    (title : String) (desc : Option String) (cIn : Option Bool) (oIn : Option Nat)
    (hv : createFirstError ⟨title, desc, cIn, oIn⟩ = none) :
    createTask db uid fid now ⟨title, desc, cIn, oIn⟩ =
      ({ db with tasks := db.tasks ++ [mkTask uid fid now ⟨title, desc, cIn, oIn⟩] },
       .one 201 (mkTask uid fid now ⟨title, desc, cIn, oIn⟩)) ∧
    (mkTask uid fid now ⟨title, desc, cIn, oIn⟩).user = uid ∧
    (mkTask uid fid now ⟨title, desc, cIn, oIn⟩).completed = false ∧
    (desc = none → (mkTask uid fid now ⟨title, desc, cIn, oIn⟩).description = "") ∧
    (∀ cIn2 oIn2, createTask db uid fid now ⟨title, desc, cIn2, oIn2⟩ =
      createTask db uid fid now ⟨title, desc, cIn, oIn⟩) := by
  refine ⟨?_, rfl, rfl, ?_, ?_⟩
  · simp [createTask, hv]
  · intro hd
    simp [mkTask, hd]
  · intro cIn2 oIn2
    simp [createTask, createFirstError, mkTask]

theorem create_forces_owner_completed_witness :
    createTask ⟨[], []⟩ 7 1 50 ⟨"Buy milk", none, some true, some 99⟩ =
      (⟨[], [mkTask 7 1 50 ⟨"Buy milk", none, some true, some 99⟩]⟩,
       .one 201 (mkTask 7 1 50 ⟨"Buy milk", none, some true, some 99⟩)) ∧
    (mkTask 7 1 50 ⟨"Buy milk", none, some true, some 99⟩).user = 7 ∧
    (mkTask 7 1 50 ⟨"Buy milk", none, some true, some 99⟩).completed = false ∧
    (mkTask 7 1 50 ⟨"Buy milk", none, some true, some 99⟩).description = "" := by
  have h := create_forces_owner_completed ⟨[], []⟩ 7 1 50 "Buy milk" none
    (some true) (some 99) (by decide)
  exact ⟨h.1, h.2.1, h.2.2.1, h.2.2.2.1 rfl⟩

/-- Claim C6: a valid update on an owned task overwrites exactly the fields
present in the request body and leaves absent fields unchanged — in
particular a completed-only payload flips only the completed flag — and a
present title is re-validated by exactly the conditions under which create
accepts it. -/
theorem update_applies_only_present_fields (db : Db) (uid tid : Nat)
    (b : UpdateBody) (t : Task)
    (hv : updateFirstError b = none)
    (hfind : findOwnedTask db tid uid = some t) :
    updateTask db uid tid b =
      ({ db with tasks := db.tasks.map fun x => if x.id == t.id then applyUpdate b t else x },
       .one 200 (applyUpdate b t)) ∧
    (b.title = none → (applyUpdate b t).title = t.title) ∧
    (b.description = none → (applyUpdate b t).description = t.description) ∧
    (b.completed = none → (applyUpdate b t).completed = t.completed) ∧
    (∀ bc : Bool, applyUpdate ⟨none, none, some bc⟩ t = { t with completed := bc }) ∧
    (applyUpdate b t).id = t.id ∧
    (applyUpdate b t).user = t.user ∧
    (applyUpdate b t).createdAt = t.createdAt ∧
    (∀ s : String, updateFirstError ⟨some s, none, none⟩ = none ↔
      createFirstError ⟨s, none, none, none⟩ = none) := by
  refine ⟨?_, ?_, ?_, ?_, ?_, rfl, rfl, rfl, ?_⟩
  · simp [updateTask, hv, hfind]
  · intro h
    simp [applyUpdate, h]
  · intro h
    simp [applyUpdate, h]
  · intro h
    simp [applyUpdate, h]
  · intro bc
    simp [applyUpdate]
  · intro s
    simp only [updateFirstError, createFirstError]
    split_ifs <;> simp

theorem update_applies_only_present_fields_witness :
    updateTask ⟨[], [⟨1, 7, "Alpha", "Beta", false, 10⟩]⟩ 7 1 ⟨none, none, some true⟩ =
      (⟨[], [⟨1, 7, "Alpha", "Beta", true, 10⟩]⟩,
       .one 200 ⟨1, 7, "Alpha", "Beta", true, 10⟩) := by
  have h := update_applies_only_present_fields ⟨[], [⟨1, 7, "Alpha", "Beta", false, 10⟩]⟩ 7 1
    ⟨none, none, some true⟩ ⟨1, 7, "Alpha", "Beta", false, 10⟩ (by decide) (by decide)
  rw [h.1]
  decide

/-- Claim C7: registration checks the duplicate email before the duplicate
username, independently of each other, so a request duplicating both
surfaces the email conflict; on either conflict no new identity is
persisted. -/
theorem register_conflict_order (db : Db) (secret now fid salt : Nat) (b : RegisterBody)
    (hv : registerFirstError b = none) :
    ((∃ u ∈ db.users, u.email = normalizeEmail b.email) →
      register db secret now fid salt b = (db, .fail 400 "User already exists with this email")) ∧
    ((∀ u ∈ db.users, u.email ≠ normalizeEmail b.email) →
      (∃ u ∈ db.users, u.username = jsTrim b.username) →
      register db secret now fid salt b = (db, .fail 400 "Username already taken")) := by
  constructor
  · rintro ⟨u, hu, he⟩
    cases h : findUserByEmail db (normalizeEmail b.email) with
    | none =>
      exfalso
      rw [findUserByEmail, List.find?_eq_none] at h
      exact h u hu (by simp [he])
    | some u2 =>
      simp [register, hv, h]
  · intro hmail
    rintro ⟨u, hu, hn⟩
    have he : findUserByEmail db (normalizeEmail b.email) = none := by
      rw [findUserByEmail, List.find?_eq_none]
      intro x hx
      simp only [beq_iff_eq]
      exact fun hc => hmail x hx hc
    cases h : findUserByName db (jsTrim b.username) with
    | none =>
      exfalso
      rw [findUserByName, List.find?_eq_none] at h
      exact h u hu (by simp [hn])
    | some u2 =>
      simp [register, hv, he, h]

theorem register_conflict_order_witness :
    register ⟨[⟨1, "alice", "alice@x.co", bcryptHash 3 "hunter99"⟩], []⟩ 5 100 2 4
      ⟨"alice", "Alice@x.co", "secret7"⟩ =
      (⟨[⟨1, "alice", "alice@x.co", bcryptHash 3 "hunter99"⟩], []⟩,
       .fail 400 "User already exists with this email") := by
  have h := register_conflict_order ⟨[⟨1, "alice", "alice@x.co", bcryptHash 3 "hunter99"⟩], []⟩
    5 100 2 4 ⟨"alice", "Alice@x.co", "secret7"⟩ (by decide)
  exact h.1 ⟨⟨1, "alice", "alice@x.co", bcryptHash 3 "hunter99"⟩, by decide, by decide⟩

end TaskManager
namespace TaskManager

/-- Claim C8: create fails with status 400 and the first violated
constraint's message when the (trimmed) title is empty, when the title
exceeds 200 characters, or when a supplied description exceeds 1000
characters; in each case no task is persisted. -/
theorem create_validation_errors (db : Db) (uid fid now : Nat) (b : CreateBody) :
    (jsTrim b.title = "" →
      createTask db uid fid now b = (db, .fail 400 "Task title is required")) ∧
    (200 < (jsTrim b.title).length →
      createTask db uid fid now b = (db, .fail 400 "Title cannot exceed 200 characters")) ∧
    (∀ d : String, b.description = some d → (jsTrim b.title) ≠ "" →
      (jsTrim b.title).length ≤ 200 → 1000 < (jsTrim d).length →
      createTask db uid fid now b = (db, .fail 400 "Description cannot exceed 1000 characters")) := by
  refine ⟨?_, ?_, ?_⟩
  · intro h
    simp [createTask, createFirstError, h]
  · intro h
    have hne : jsTrim b.title ≠ "" := by
      intro he
      rw [he] at h
      simp [String.length] at h
    simp [createTask, createFirstError, h, hne]
  · intro d hd hne hlen hdlen
    simp [createTask, createFirstError, hd, hne, Nat.not_lt.mpr hlen, hdlen]

theorem create_validation_errors_witness :
    createTask ⟨[], []⟩ 1 3 10 ⟨"", some "d", none, none⟩ =
      (⟨[], []⟩, .fail 400 "Task title is required") :=
  (create_validation_errors ⟨[], []⟩ 1 3 10 ⟨"", some "d", none, none⟩).1 (by decide)

/-- Claim C9: login validates the email format before any credential check:
a syntactically invalid email yields 400 "Please provide a valid email" for
every database and password, while a well-formed email unknown to the
database yields 401 "Invalid email or password". -/
theorem login_email_format_before_credentials (db : Db) (secret now : Nat) (e p : String) :
    (isEmail e = false →
      login db secret now ⟨e, p⟩ = .fail 400 "Please provide a valid email") ∧
    (isEmail e = true → p ≠ "" → (∀ u ∈ db.users, u.email ≠ normalizeEmail e) →
      login db secret now ⟨e, p⟩ = .fail 401 "Invalid email or password") := by
  constructor
  · intro h
    simp [login, loginFirstError, h]
  · intro he hp hu
    have hfind : findUserByEmail db (normalizeEmail e) = none := by
      rw [findUserByEmail, List.find?_eq_none]
      intro x hx
      simp only [beq_iff_eq]
      exact fun hc => hu x hx hc
    simp [login, loginFirstError, he, hp, hfind]

theorem login_email_format_before_credentials_witness :
    login ⟨[⟨1, "alice", "alice@x.co", bcryptHash 3 "hunter99"⟩], []⟩ 5 100
      ⟨"no-at-sign", "hunter99"⟩ = .fail 400 "Please provide a valid email" ∧
    login ⟨[⟨1, "alice", "alice@x.co", bcryptHash 3 "hunter99"⟩], []⟩ 5 100
      ⟨"ghost@x.co", "hunter99"⟩ = .fail 401 "Invalid email or password" := by
  constructor
  · exact (login_email_format_before_credentials
      ⟨[⟨1, "alice", "alice@x.co", bcryptHash 3 "hunter99"⟩], []⟩ 5 100
      "no-at-sign" "hunter99").1 (by decide)
  · exact (login_email_format_before_credentials
      ⟨[⟨1, "alice", "alice@x.co", bcryptHash 3 "hunter99"⟩], []⟩ 5 100
      "ghost@x.co" "hunter99").2 (by decide) (by decide) (by decide)

/-- Claim C10: titles and descriptions are trimmed before validation and
storage: a title that trims to nothing (e.g. only whitespace) is rejected
with "Task title is required", a created task stores the trimmed title and
description (both fixed points of trimming), and if every stored task has
trimmed fields then this still holds after any create or update. -/
theorem trim_before_validation_and_storage (db : Db) (uid fid now tid : Nat)
    (b : CreateBody) (b2 : UpdateBody)
    (hdb : ∀ t ∈ db.tasks, jsTrim t.title = t.title ∧ jsTrim t.description = t.description) :
    (jsTrim b.title = "" →
      createTask db uid fid now b = (db, .fail 400 "Task title is required")) ∧
    ((mkTask uid fid now b).title = jsTrim b.title) ∧
    (jsTrim (mkTask uid fid now b).title = (mkTask uid fid now b).title) ∧
    (jsTrim (mkTask uid fid now b).description = (mkTask uid fid now b).description) ∧
    (∀ t ∈ (createTask db uid fid now b).1.tasks,
      jsTrim t.title = t.title ∧ jsTrim t.description = t.description) ∧
    (∀ t ∈ (updateTask db uid tid b2).1.tasks,
      jsTrim t.title = t.title ∧ jsTrim t.description = t.description) := by
  have hmkt : jsTrim (mkTask uid fid now b).title = (mkTask uid fid now b).title :=
    jsTrim_idem b.title
  have hmkd : jsTrim (mkTask uid fid now b).description = (mkTask uid fid now b).description := by
    cases hd : b.description with
    | none => simp [mkTask, hd]; decide
    | some d => simp [mkTask, hd]; exact jsTrim_idem d
  refine ⟨?_, rfl, hmkt, hmkd, ?_, ?_⟩
  · intro h
    simp [createTask, createFirstError, h]
  · cases hc : createFirstError b with
    | some m =>
      simp only [createTask, hc]
      exact hdb
    | none =>
      intro t ht
      simp only [createTask, hc] at ht
      rcases List.mem_append.mp ht with ht | ht
      · exact hdb t ht
      · rcases List.mem_singleton.mp ht with rfl
        exact ⟨hmkt, hmkd⟩
  · cases hu : updateFirstError b2 with
    | some m =>
      simp only [updateTask, hu]
      exact hdb
    | none =>
      cases hf : findOwnedTask db tid uid with
      | none =>
        simp only [updateTask, hu, hf]
        exact hdb
      | some t0 =>
        have ht0 : t0 ∈ db.tasks := by
          rw [findOwnedTask] at hf
          exact List.mem_of_find?_eq_some hf
        have happ : jsTrim (applyUpdate b2 t0).title = (applyUpdate b2 t0).title ∧
            jsTrim (applyUpdate b2 t0).description = (applyUpdate b2 t0).description := by
          constructor
          · cases h2 : b2.title with
            | none => simp [applyUpdate, h2]; exact (hdb t0 ht0).1
            | some s => simp [applyUpdate, h2]; exact jsTrim_idem s
          · cases h2 : b2.description with
            | none => simp [applyUpdate, h2]; exact (hdb t0 ht0).2
            | some s => simp [applyUpdate, h2]; exact jsTrim_idem s
        intro t ht
        simp only [updateTask, hu, hf] at ht
        rcases List.mem_map.mp ht with ⟨x, hx, hxe⟩
        by_cases hid : (x.id == t0.id) = true
        · rw [if_pos hid] at hxe
          rw [← hxe]
          exact happ
        · rw [if_neg hid] at hxe
          rw [← hxe]
          exact hdb x hx

theorem trim_before_validation_and_storage_witness :
    createTask ⟨[], []⟩ 1 3 10 ⟨"   ", none, none, none⟩ =
      (⟨[], []⟩, .fail 400 "Task title is required") :=
  (trim_before_validation_and_storage ⟨[], []⟩ 1 3 10 1 ⟨"   ", none, none, none⟩
    ⟨none, none, none⟩ (by decide)).1 (by decide)

end TaskManager
